import Mathlib

/-!
Olive: the command-line scan of `main` and the `Ghost` record.

A shallow embedding of two pieces of the Olive video editor:

* `src/main.cpp`, function `main`: the scan of `argv` (lines 159-214) and the
  part of the launch that depends on what the scan computed (lines 216-218 and
  266-273);
* `src/timeline/ghost.h`: the enum `olive::timeline::TrimType` and the struct
  `Ghost`.

Modelling conventions.

* `argv` is a `List String`; `argc` is `argv.length`.  A C string is a Lean
  `String`; `argv[i][0]` is `firstChar`, which is the terminating NUL for the
  empty string.  `!strcmp(a, "lit")` is `a = "lit"`.
* A read `argv[k]` is `argv[k]?`; a read outside `0 .. argc-1` makes the
  embedded function return `none`, so a theorem that a run returns `some _`
  also says that every read was in bounds.
* Standard output is the text passed to `printf`.  `qWarning()` does not write
  to standard output; its messages are kept in a separate list.
* `olive::AppName` and the macro `GITHASH` are declared outside the two source
  files; they are the fields of `Build`.  The initial contents of
  `olive::runtime_config` are a parameter `rc0`.
* The loop has a fuel argument; `main` supplies `argc`, which is always enough
  (`main_total`).
-/

namespace Olive

/-! ## `src/timeline/ghost.h` -/

/-- The enum `olive::timeline::TrimType` (ghost.h, lines 10-14). -/
inductive TrimType where
  | TRIM_NONE
  | TRIM_IN
  | TRIM_OUT
deriving DecidableEq, Repr

/-- The integer value a C++ unscoped enum gives each enumerator. -/
def TrimType.toInt : TrimType → Int
  | .TRIM_NONE => 0
  | .TRIM_IN => 1
  | .TRIM_OUT => 2

/-- An address: the value of a `Clip*`, `Track*`, `Media*` or `TransitionPtr`
(0 is the null pointer). The pointed-to types are declared outside `ghost.h`. -/
abbrev Ptr := Nat

/-- The struct `Ghost` (ghost.h, lines 19-44), data members in declaration
order. `long` and `int` members are integers; no arithmetic is done on them
in this file. -/
structure Ghost where
  clip : Ptr
  «in» : Int
  out : Int
  track : Ptr
  clip_in : Int
  old_in : Int
  old_out : Int
  old_track : Ptr
  old_clip_in : Int
  media : Ptr
  media_stream : Int
  ghost_length : Int
  media_length : Int
  trim_type : TrimType
  transition : Ptr
deriving DecidableEq, Repr

/-- The assignment `g.in = v`. -/
def Ghost.assign_in (g : Ghost) (v : Int) : Ghost := { g with «in» := v }

/-- The assignment `g.out = v`. -/
def Ghost.assign_out (g : Ghost) (v : Int) : Ghost := { g with out := v }

/-- The assignment `g.track = v`. -/
def Ghost.assign_track (g : Ghost) (v : Ptr) : Ghost := { g with track := v }

/-- The assignment `g.clip_in = v`. -/
def Ghost.assign_clip_in (g : Ghost) (v : Int) : Ghost := { g with clip_in := v }

/-- The members a write to a proposed field must leave alone: the four
prior-state members, the two import members and `trim_type`. -/
def Ghost.kept (g : Ghost) : Int × Int × Ptr × Int × Ptr × Int × TrimType :=
  (g.old_in, g.old_out, g.old_track, g.old_clip_in, g.media, g.media_stream, g.trim_type)

/-! ## `src/main.cpp` -/

/-- What `main` takes from outside the two source files: `olive::AppName`
(as the bytes `olive::AppName.toUtf8().constData()` yields) and whether the
macro `GITHASH` is defined. -/
structure Build where
  AppName : String
  GITHASH : Bool
deriving DecidableEq, Repr

/-- The two members of `olive::runtime_config` that `main` writes. -/
structure RuntimeConfig where
  shaders_are_enabled : Bool
  external_translation_file : String
deriving DecidableEq, Repr

/-- The locals of `main` that the scan writes (lines 159-162), with the
runtime configuration. -/
structure ParseState where
  launch_fullscreen : Bool
  load_proj : String
  use_internal_logger : Bool
  runtime_config : RuntimeConfig
deriving DecidableEq, Repr

/-- The state before the scan: lines 159-162. -/
def initState (rc0 : RuntimeConfig) : ParseState :=
  { launch_fullscreen := false
    load_proj := ""
    use_internal_logger := true
    runtime_config := rc0 }

/-- The C expression `s[0]` for a NUL-terminated string `s`. -/
def firstChar (s : String) : Char :=
  match s.data with
  | [] => Char.ofNat 0
  | c :: _ => c

/-- The format string of the `printf` at lines 174-188 after `Usage: %s`. -/
def usageBody : String :=
  " [options] [filename]\n\n" ++
  "[filename] is the file to open on startup.\n\n" ++
  "Options:\n" ++
  "\t-v, --version\t\tShow version information\n" ++
  "\t-h, --help\t\tShow this help\n" ++
  "\t-f, --fullscreen\tStart in full screen mode\n" ++
  "\t--disable-shaders\tDisable OpenGL shaders (for debugging)\n" ++
  "\t--no-debug\t\tDisable internal debug log and output directly to console\n" ++
  "\t--translation <file>\tSet an external language file to use\n" ++
  "\n" ++
  "Environment Variables:\n" ++
  "\tOLIVE_EFFECTS_PATH\tSpecify a path to search for GLSL shader effects\n" ++
  "\tFREI0R_PATH\t\tSpecify a path to search for Frei0r effects\n" ++
  "\tOLIVE_LANG_PATH\t\tSpecify a path to search for translation files\n" ++
  "\n"

/-- The text the `printf` at lines 174-188 writes, `p` being `argv[0]`. -/
def usage (p : String) : String := "Usage: " ++ p ++ usageBody

/-- The text of `printf("[ERROR] No translation file specified\n")`, line 203. -/
def noTranslationMsg : String := "[ERROR] No translation file specified\n"

/-- The text of `printf("[ERROR] Unknown argument '%s'\n", s)`, line 207. -/
def unknownMsg (s : String) : String := "[ERROR] Unknown argument '" ++ s ++ "'\n"

/-- What `qWarning()` receives at lines 168-170. -/
def versionWarnings (b : Build) : List String :=
  if b.GITHASH then [] else ["No Git commit information found"]

/-- The result of one execution of the loop body: either `main` returns
(`return code;` after writing `out` to standard output and `warn` through
`qWarning`), or the body ends with the loop variable equal to `i` and the
state `st`. -/
inductive Step where
  | ret (code : Int) (out : String) (warn : List String)
  | cont (i : Nat) (st : ParseState)
deriving DecidableEq, Repr

/-- The body of the `for` loop, lines 166-212, at loop variable `i`. -/
def body (b : Build) (argv : List String) (i : Nat) (st : ParseState) : Option Step :=
  match argv[i]? with
  | none => none
  | some a =>
    if firstChar a = '-' then
      if a = "--version" ∨ a = "-v" then
        some (.ret 0 (b.AppName ++ "\n") (versionWarnings b))
      else if a = "--help" ∨ a = "-h" then
        match argv[0]? with
        | none => none
        | some p => some (.ret 0 (usage p) [])
      else if a = "--fullscreen" ∨ a = "-f" then
        some (.cont i { st with launch_fullscreen := true })
      else if a = "--disable-shaders" then
        some (.cont i { st with
          runtime_config := { st.runtime_config with shaders_are_enabled := false } })
      else if a = "--no-debug" then
        some (.cont i { st with use_internal_logger := false })
      else if a = "--translation" then
        if i + 1 < argv.length then
          match argv[i + 1]? with
          | none => none
          | some f =>
            if firstChar f ≠ '-' then
              some (.cont (i + 1) { st with
                runtime_config := { st.runtime_config with external_translation_file := f } })
            else
              some (.ret 1 noTranslationMsg [])
        else
          some (.ret 1 noTranslationMsg [])
      else
        match argv[1]? with
        | none => none
        | some a1 => some (.ret 1 (unknownMsg a1) [])
    else if st.load_proj = "" then
      some (.cont i { st with load_proj := a })
    else
      some (.cont i st)

/-- How the main window is shown, lines 269-273. -/
inductive WindowMode where
  | fullScreen
  | maximized
deriving DecidableEq, Repr

/-- What the code after the scan does with the scan's results. -/
structure Launch where
  handler_installed : Bool
  loaded_project : Option String
  window : WindowMode
  runtime_config : RuntimeConfig
deriving DecidableEq, Repr

/-- Lines 216-218 and 266-273: the message handler is installed when
`use_internal_logger`, `load_project_on_launch(load_proj)` is called when
`load_proj` is not empty, and the window is shown full screen or maximized. -/
def launch (st : ParseState) : Launch :=
  { handler_installed := st.use_internal_logger
    loaded_project := if st.load_proj = "" then none else some st.load_proj
    window := if st.launch_fullscreen then .fullScreen else .maximized
    runtime_config := st.runtime_config }

/-- How `main` ends: it returns from inside the scan, or it goes on to build
the application and enter `a.exec()`. -/
inductive Outcome where
  | exited (code : Int) (out : String) (warn : List String)
  | launched (l : Launch)
deriving DecidableEq, Repr

/-- The `for` loop of lines 165-213 from loop variable `i`: test `i < argc`,
run the body, do `i++`. `none` is an out-of-bounds read or exhausted fuel. -/
def scan (b : Build) (argv : List String) : Nat → Nat → ParseState → Option Outcome
  | 0, _, _ => none
  | fuel + 1, i, st =>
    if i < argv.length then
      match body b argv i st with
      | none => none
      | some (.ret code out warn) => some (.exited code out warn)
      | some (.cont j st1) => scan b argv fuel (j + 1) st1
    else
      some (.launched (launch st))

/-- The function `main`, as far as the command line decides it. -/
def main (b : Build) (rc0 : RuntimeConfig) (argv : List String) : Option Outcome :=
  if argv.length > 1 then
    scan b argv argv.length 1 (initState rc0)
  else
    some (.launched (launch (initState rc0)))

/-- The loop reaches its head with loop variable `i` and state `st`:
`Reaches b rc0 argv i st` holds when the test `i < argc` is about to be
evaluated with these values. -/
inductive Reaches (b : Build) (rc0 : RuntimeConfig) (argv : List String) :
    Nat → ParseState → Prop where
  | start : 1 < argv.length → Reaches b rc0 argv 1 (initState rc0)
  | step {i j : Nat} {st st1 : ParseState} :
      Reaches b rc0 argv i st → i < argv.length →
      body b argv i st = some (.cont j st1) → Reaches b rc0 argv (j + 1) st1

/-- The string literals `argv[i]` is compared with by `strcmp` in lines
167-196, in the order the source tests them. -/
def flagLiterals : List String :=
  ["--version", "-v", "--help", "-h", "--fullscreen", "-f", "--disable-shaders",
   "--no-debug", "--translation"]

/-- A build used in the worked examples: the application is named `Olive`
and `GITHASH` is defined. -/
def sampleBuild : Build := { AppName := "Olive", GITHASH := true }

/-- A runtime configuration used in the worked examples: shaders enabled, no
translation file. -/
def sampleConfig : RuntimeConfig :=
  { shaders_are_enabled := true, external_translation_file := "" }

/-- Characters that separate words in the usage text: blank, tab, newline
and comma. -/
def isSeparator (c : Char) : Bool :=
  c = ' ' || c = '\t' || c = '\n' || c = ','

/-- The words of a text: the maximal runs of characters that are not
separators, in order. `cur` is the word being read. -/
def wordsFrom : List Char → List Char → List String
  | [], cur => if cur = [] then [] else [String.mk cur]
  | c :: cs, cur =>
    if isSeparator c then
      if cur = [] then wordsFrom cs [] else String.mk cur :: wordsFrom cs []
    else
      wordsFrom cs (cur ++ [c])

/-- The option spellings a text names: its words that begin with `-`. -/
def documentedOptions (text : String) : List String :=
  (wordsFrom text.data []).filter (fun w => firstChar w = '-')

/-- The lines of a text, without their newline characters. -/
def linesFrom : List Char → List Char → List (List Char)
  | [], cur => [cur]
  | c :: cs, cur => if c = '\n' then cur :: linesFrom cs [] else linesFrom cs (cur ++ [c])

/-- The part of a list of lines that follows the first line equal to `h`. -/
def afterHeading (h : List Char) : List (List Char) → List (List Char)
  | [] => []
  | l :: ls => if l = h then ls else afterHeading h ls

/-- The names a text lists under its heading `Environment Variables:`: the
first word of each tab-indented line after that heading. -/
def documentedVariables (text : String) : List String :=
  ((afterHeading "Environment Variables:".data (linesFrom text.data [])).filter
    (fun l => l.head? = some '\t')).filterMap (fun l => (wordsFrom l []).head?)

/-- The largest index of `argv` the loop body reads at loop variable `i`: the
body reads `argv[i]`, in the help and unknown-argument branches `argv[0]` and
`argv[1]`, and after `--translation`, when `i + 1 < argc`, also `argv[i + 1]`. -/
def lastInspected (argv : List String) (i : Nat) : Nat :=
  if argv[i]? = some "--translation" ∧ i + 1 < argv.length then i + 1 else i

/-! ## Basic facts about the loop -/

theorem firstChar_translation : firstChar "--translation" = '-' := by decide

theorem body_cont_cases {b : Build} {argv : List String} {i j : Nat} {st st1 : ParseState}
    (h : body b argv i st = some (.cont j st1)) :
    (j = i ∧ argv[i]? ≠ some "--translation") ∨
    (j = i + 1 ∧ i + 1 < argv.length ∧ argv[i]? = some "--translation") := by
  unfold body at h
  split at h
  · simp at h
  · rename_i a ha
    rw [ha]
    split_ifs at h <;> (try split at h) <;> (try split_ifs at h) <;> simp_all
    all_goals (rintro rfl; simp_all [firstChar_translation])

theorem body_lt {b : Build} {argv : List String} {i : Nat} {st : ParseState} {s : Step}
    (h : body b argv i st = some s) : i < argv.length := by
  by_contra hn
  have : argv[i]? = none := List.getElem?_eq_none (by omega)
  simp [body, this] at h

theorem body_cont_idx {b : Build} {argv : List String} {i j : Nat} {st st1 : ParseState}
    (h : body b argv i st = some (.cont j st1)) :
    j = i ∨ (j = i + 1 ∧ i + 1 < argv.length) := by
  rcases body_cont_cases h with ⟨h1, _⟩ | ⟨h1, h2, _⟩
  · exact Or.inl h1
  · exact Or.inr ⟨h1, h2⟩

theorem body_isSome {b : Build} {argv : List String} {i : Nat} {st : ParseState}
    (h1 : 1 ≤ i) (h2 : i < argv.length) : ∃ s, body b argv i st = some s := by
  obtain ⟨a, ha⟩ : ∃ a, argv[i]? = some a := ⟨_, List.getElem?_eq_getElem h2⟩
  obtain ⟨p, h0⟩ : ∃ a, argv[0]? = some a := ⟨_, List.getElem?_eq_getElem (by omega)⟩
  obtain ⟨a1, h1⟩ : ∃ a, argv[1]? = some a := ⟨_, List.getElem?_eq_getElem (by omega)⟩
  cases hb : body b argv i st with
  | some s => exact ⟨s, rfl⟩
  | none =>
    exfalso
    unfold body at hb
    rw [ha] at hb
    simp only [h0, h1] at hb
    split_ifs at hb with _ _ _ _ _ _ _ h8
    obtain ⟨f, hf⟩ : ∃ a, argv[i + 1]? = some a := ⟨_, List.getElem?_eq_getElem h8⟩
    rw [hf] at hb
    simp only at hb
    split_ifs at hb

theorem scan_fuel {b : Build} {argv : List String} :
    ∀ (f1 f2 i : Nat) (st : ParseState), 1 ≤ i → i ≤ argv.length →
      argv.length < i + f1 → argv.length < i + f2 →
      scan b argv f1 i st = scan b argv f2 i st := by
  intro f1
  induction f1 with
  | zero => intro f2 i st _ h2 h3; omega
  | succ f1 ih =>
    intro f2 i st h1 h2 h3 h4
    cases f2 with
    | zero => omega
    | succ f2 =>
      simp only [scan]
      by_cases hi : i < argv.length
      · simp only [hi, if_true]
        cases hb : body b argv i st with
        | none => rfl
        | some s =>
          cases s with
          | ret c o w => rfl
          | cont j st1 =>
            simp only
            have hc := body_cont_idx hb
            apply ih <;> omega
      · simp only [hi, if_false]

theorem reaches_main {b : Build} {rc0 : RuntimeConfig} {argv : List String} {i : Nat}
    {st : ParseState} (h : Reaches b rc0 argv i st) :
    (1 ≤ i ∧ i ≤ argv.length ∧ 1 < argv.length) ∧
      ∀ fuel, argv.length < i + fuel → main b rc0 argv = scan b argv fuel i st := by
  induction h with
  | start h1 =>
    refine ⟨⟨le_refl _, by omega, h1⟩, ?_⟩
    intro fuel hf
    unfold main
    rw [if_pos h1]
    exact scan_fuel _ _ _ _ (le_refl _) (by omega) (by omega) hf
  | @step k j s s1 hr hi hb ih =>
    have hc := body_cont_idx hb
    refine ⟨⟨by omega, by omega, ih.1.2.2⟩, ?_⟩
    intro fuel hf
    rw [ih.2 (fuel + 2) (by omega)]
    simp only [scan, hi, if_true, hb]
    exact scan_fuel (fuel + 1) fuel (j + 1) s1 (by omega) (by omega) (by omega) hf

theorem reaches_bounds {b : Build} {rc0 : RuntimeConfig} {argv : List String} {i : Nat}
    {st : ParseState} (h : Reaches b rc0 argv i st) :
    1 ≤ i ∧ i ≤ argv.length ∧ 1 < argv.length := (reaches_main h).1

theorem main_of_ret {b : Build} {rc0 : RuntimeConfig} {argv : List String} {i : Nat}
    {st : ParseState} {c : Int} {o : String} {w : List String}
    (h : Reaches b rc0 argv i st) (hb : body b argv i st = some (.ret c o w)) :
    main b rc0 argv = some (.exited c o w) := by
  have hi := body_lt hb
  rw [(reaches_main h).2 (argv.length + 1) (by omega)]
  simp only [scan, hi, if_true, hb]

theorem main_of_end {b : Build} {rc0 : RuntimeConfig} {argv : List String} {i : Nat}
    {st : ParseState} (h : Reaches b rc0 argv i st) (hi : argv.length ≤ i) :
    main b rc0 argv = some (.launched (launch st)) := by
  rw [(reaches_main h).2 1 (by omega)]
  have : ¬ i < argv.length := by omega
  simp only [scan, this, if_false]

theorem scan_total {b : Build} {rc0 : RuntimeConfig} {argv : List String} :
    ∀ (fuel i : Nat) (st : ParseState), Reaches b rc0 argv i st → argv.length < i + fuel →
      (∃ c o w j s, Reaches b rc0 argv j s ∧ body b argv j s = some (.ret c o w) ∧
        scan b argv fuel i st = some (.exited c o w)) ∨
      (∃ s, Reaches b rc0 argv argv.length s ∧
        scan b argv fuel i st = some (.launched (launch s))) := by
  intro fuel
  induction fuel with
  | zero => intro i st hr hf; have := reaches_bounds hr; omega
  | succ fuel ih =>
    intro i st hr hf
    have hbd := reaches_bounds hr
    simp only [scan]
    by_cases hi : i < argv.length
    · simp only [hi, if_true]
      obtain ⟨s, hb⟩ := @body_isSome b argv i st hbd.1 hi
      cases s with
      | ret c o w =>
        left
        exact ⟨c, o, w, i, st, hr, hb, by simp only [hb]⟩
      | cont j st1 =>
        have hc := body_cont_idx hb
        simp only [hb]
        exact ih (j + 1) st1 (Reaches.step hr hi hb) (by omega)
    · right
      have : i = argv.length := by omega
      subst this
      exact ⟨st, hr, by simp only [hi, if_false]⟩

/-- The run of `main` always ends: it returns from the scan at a position the
loop reached, or the scan ends at `argc` and the application is launched. -/
theorem main_cases (b : Build) (rc0 : RuntimeConfig) (argv : List String) :
    (∃ c o w j s, Reaches b rc0 argv j s ∧ body b argv j s = some (.ret c o w) ∧
        main b rc0 argv = some (.exited c o w)) ∨
    (∃ s, Reaches b rc0 argv argv.length s ∧
        main b rc0 argv = some (.launched (launch s))) ∨
    (argv.length ≤ 1 ∧ main b rc0 argv = some (.launched (launch (initState rc0)))) := by
  by_cases h : 1 < argv.length
  · have hr : Reaches b rc0 argv 1 (initState rc0) := Reaches.start h
    have hm : main b rc0 argv = scan b argv argv.length 1 (initState rc0) := by
      unfold main; rw [if_pos h]
    rcases scan_total argv.length 1 _ hr (by omega) with h1 | h1
    · left; rw [hm]; exact h1
    · right; left; rw [hm]; exact h1
  · right; right
    refine ⟨by omega, ?_⟩
    unfold main
    rw [if_neg h]

/-- The function `main` returns a result on every command line: no read of
`argv` is out of bounds and the fuel `argc` is enough. -/
theorem main_total (b : Build) (rc0 : RuntimeConfig) (argv : List String) :
    ∃ o, main b rc0 argv = some o := by
  rcases main_cases b rc0 argv with ⟨c, o, w, _, _, _, _, h⟩ | ⟨s, _, h⟩ | ⟨_, h⟩
  · exact ⟨_, h⟩
  · exact ⟨_, h⟩
  · exact ⟨_, h⟩

/-! ## The branches of the loop body -/

theorem body_version {b : Build} {argv : List String} {i : Nat} {st : ParseState} {a : String}
    (ha : argv[i]? = some a) (hv : a = "-v" ∨ a = "--version") :
    body b argv i st = some (.ret 0 (b.AppName ++ "\n") (versionWarnings b)) := by
  have hd : firstChar a = '-' := by rcases hv with rfl | rfl <;> decide
  have hv2 : a = "--version" ∨ a = "-v" := hv.symm
  simp only [body, ha, hd, hv2, if_true]

theorem body_help {b : Build} {argv : List String} {i : Nat} {st : ParseState} {a p : String}
    (ha : argv[i]? = some a) (hh : a = "-h" ∨ a = "--help") (hp : argv[0]? = some p) :
    body b argv i st = some (.ret 0 (usage p) []) := by
  have hd : firstChar a = '-' := by rcases hh with rfl | rfl <;> decide
  have hv : ¬ (a = "--version" ∨ a = "-v") := by rcases hh with rfl | rfl <;> decide
  have hh2 : a = "--help" ∨ a = "-h" := hh.symm
  simp only [body, ha, hd, hv, hh2, hp, if_true, if_false]

theorem body_translation_last {b : Build} {argv : List String} {i : Nat} {st : ParseState}
    (ha : argv[i]? = some "--translation") (hl : argv.length ≤ i + 1) :
    body b argv i st = some (.ret 1 noTranslationMsg []) := by
  have hl2 : ¬ i + 1 < argv.length := by omega
  simp +decide [body, ha, hl2]

theorem body_translation_dash {b : Build} {argv : List String} {i : Nat} {st : ParseState}
    {f : String} (ha : argv[i]? = some "--translation") (hf : argv[i + 1]? = some f)
    (hd : firstChar f = '-') :
    body b argv i st = some (.ret 1 noTranslationMsg []) := by
  simp +decide [body, ha, hf, hd]

theorem body_translation_value {b : Build} {argv : List String} {i : Nat} {st : ParseState}
    {f : String} (ha : argv[i]? = some "--translation") (hf : argv[i + 1]? = some f)
    (hd : firstChar f ≠ '-') :
    body b argv i st = some (.cont (i + 1) { st with
      runtime_config := { st.runtime_config with external_translation_file := f } }) := by
  have hl : i + 1 < argv.length := by
    by_contra hn
    have : argv[i + 1]? = none := List.getElem?_eq_none (by omega)
    simp [this] at hf
  simp +decide [body, ha, hf, hd, hl]

theorem body_unknown {b : Build} {argv : List String} {i : Nat} {st : ParseState}
    {a a1 : String} (ha : argv[i]? = some a) (hd : firstChar a = '-')
    (hn : a ∉ flagLiterals) (h1 : argv[1]? = some a1) :
    body b argv i st = some (.ret 1 (unknownMsg a1) []) := by
  simp only [flagLiterals, List.mem_cons, List.mem_singleton, List.not_mem_nil, or_false,
    not_or] at hn
  obtain ⟨n1, n2, n3, n4, n5, n6, n7, n8, n9⟩ := hn
  simp [body, ha, hd, n1, n2, n3, n4, n5, n6, n7, n8, n9, h1]

theorem reaches_arg1 {b : Build} {rc0 : RuntimeConfig} {argv : List String} {i : Nat}
    {st : ParseState} (h : Reaches b rc0 argv i st) : ∃ a1, argv[1]? = some a1 :=
  ⟨_, List.getElem?_eq_getElem (reaches_bounds h).2.2⟩

theorem reaches_arg0 {b : Build} {rc0 : RuntimeConfig} {argv : List String} {i : Nat}
    {st : ParseState} (h : Reaches b rc0 argv i st) : ∃ p, argv[0]? = some p :=
  ⟨_, List.getElem?_eq_getElem (by have := (reaches_bounds h).2.2; omega)⟩

/-! ## Argument errors and the version flag -/

/-- C1: when the scan reaches `--translation` and it is the last argument,
`main` returns 1, standard output is exactly the text
`[ERROR] No translation file specified` with a newline, and the application
is not launched. -/
theorem translation_last_exits (b : Build) (rc0 : RuntimeConfig) (argv : List String)
    (i : Nat) (st : ParseState) (hr : Reaches b rc0 argv i st)
    (ha : argv[i]? = some "--translation") (hlast : i + 1 = argv.length) :
    main b rc0 argv = some (.exited 1 "[ERROR] No translation file specified\n" []) :=
  main_of_ret hr (body_translation_last ha (by omega))

theorem translation_last_exits_witness :
    main sampleBuild sampleConfig ["olive", "-f", "--translation"] =
      some (.exited 1 "[ERROR] No translation file specified\n" []) :=
  translation_last_exits sampleBuild sampleConfig ["olive", "-f", "--translation"] 2
    { initState sampleConfig with launch_fullscreen := true }
    (Reaches.step (Reaches.start (by decide)) (by decide) (by decide)) (by decide) (by decide)

/-- C2: when the scan reaches an argument that begins with `-` and is none of
the nine flag spellings (a lone `-`, `--` and `-V` are such arguments),
`main` returns 1 after writing a message that starts
`[ERROR] Unknown argument`, and the application is not launched. -/
theorem unknown_flag_exits (b : Build) (rc0 : RuntimeConfig) (argv : List String)
    (i : Nat) (st : ParseState) (a : String) (hr : Reaches b rc0 argv i st)
    (ha : argv[i]? = some a) (hd : firstChar a = '-')
    (hn : a ∉ ["-v", "--version", "-h", "--help", "-f", "--fullscreen", "--disable-shaders",
      "--no-debug", "--translation"]) :
    ∃ a1, argv[1]? = some a1 ∧ main b rc0 argv =
      some (.exited 1 ("[ERROR] Unknown argument '" ++ a1 ++ "'\n") []) := by
  obtain ⟨a1, h1⟩ := reaches_arg1 hr
  refine ⟨a1, h1, ?_⟩
  have hn2 : a ∉ flagLiterals := by
    simp only [flagLiterals, List.mem_cons, List.mem_singleton, List.not_mem_nil, or_false,
      not_or] at hn ⊢
    tauto
  exact main_of_ret hr (body_unknown ha hd hn2 h1)

theorem unknown_flag_exits_witness :
    main sampleBuild sampleConfig ["olive", "-"] =
      some (.exited 1 "[ERROR] Unknown argument '-'\n" []) ∧
    main sampleBuild sampleConfig ["olive", "--"] =
      some (.exited 1 "[ERROR] Unknown argument '--'\n" []) ∧
    main sampleBuild sampleConfig ["olive", "-V"] =
      some (.exited 1 "[ERROR] Unknown argument '-V'\n" []) := by
  refine ⟨?_, ?_, ?_⟩
  · obtain ⟨a1, h1, hm⟩ := unknown_flag_exits sampleBuild sampleConfig ["olive", "-"] 1
      (initState sampleConfig) "-" (Reaches.start (by decide)) (by decide) (by decide)
      (by decide)
    have h2 : a1 = "-" := by simpa using h1.symm
    subst h2
    exact hm
  · obtain ⟨a1, h1, hm⟩ := unknown_flag_exits sampleBuild sampleConfig ["olive", "--"] 1
      (initState sampleConfig) "--" (Reaches.start (by decide)) (by decide) (by decide)
      (by decide)
    have h2 : a1 = "--" := by simpa using h1.symm
    subst h2
    exact hm
  · obtain ⟨a1, h1, hm⟩ := unknown_flag_exits sampleBuild sampleConfig ["olive", "-V"] 1
      (initState sampleConfig) "-V" (Reaches.start (by decide)) (by decide) (by decide)
      (by decide)
    have h2 : a1 = "-V" := by simpa using h1.symm
    subst h2
    exact hm

theorem unknownMsg_inj {x y : String} : unknownMsg x = unknownMsg y ↔ x = y := by
  constructor
  · intro h
    have h2 := congrArg String.data h
    simp only [unknownMsg, String.data_append] at h2
    have h3 := List.append_cancel_left (List.append_cancel_right h2)
    exact String.ext h3
  · rintro rfl; rfl

theorem noTranslationMsg_ne_unknownMsg (x : String) : noTranslationMsg ≠ unknownMsg x := by
  intro h
  have h2 := congrArg (fun s => s.data.take 9) h
  simp only [unknownMsg, noTranslationMsg, String.data_append, List.append_assoc] at h2
  simp at h2

/-- C3: when the scan reaches `-v` or `--version`, `main` returns 0 and the
whole of standard output is the application name followed by a newline. -/
theorem version_flag_exits (b : Build) (rc0 : RuntimeConfig) (argv : List String)
    (i : Nat) (st : ParseState) (a : String) (hr : Reaches b rc0 argv i st)
    (ha : argv[i]? = some a) (hv : a = "-v" ∨ a = "--version") :
    main b rc0 argv = some (.exited 0 (b.AppName ++ "\n") (versionWarnings b)) :=
  main_of_ret hr (body_version ha hv)

theorem version_flag_exits_witness :
    main sampleBuild sampleConfig ["olive", "-v"] = some (.exited 0 "Olive\n" []) :=
  version_flag_exits sampleBuild sampleConfig ["olive", "-v"] 1 (initState sampleConfig) "-v"
    (Reaches.start (by decide)) (by decide) (Or.inl rfl)

/-- C10: when `main` returns on an unrecognized flag at position `i`, then
`1 ≤ i`, `argc > 1`, the read of `argv[1]` is in bounds, and the message
written quotes `argv[1]`; it is the message that would quote the
unrecognized flag exactly when that flag equals `argv[1]`. -/
theorem unknown_message_quotes_argv1 (b : Build) (rc0 : RuntimeConfig) (argv : List String)
    (i : Nat) (st : ParseState) (a : String) (hr : Reaches b rc0 argv i st)
    (ha : argv[i]? = some a) (hd : firstChar a = '-') (hn : a ∉ flagLiterals) :
    1 ≤ i ∧ 1 < argv.length ∧ ∃ a1, argv[1]? = some a1 ∧
      main b rc0 argv = some (.exited 1 ("[ERROR] Unknown argument '" ++ a1 ++ "'\n") []) ∧
      ("[ERROR] Unknown argument '" ++ a1 ++ "'\n" = "[ERROR] Unknown argument '" ++ a ++ "'\n"
        ↔ a = a1) := by
  obtain ⟨a1, h1⟩ := reaches_arg1 hr
  have hb := reaches_bounds hr
  refine ⟨hb.1, hb.2.2, a1, h1, main_of_ret hr (body_unknown ha hd hn h1), ?_⟩
  have := @unknownMsg_inj a1 a
  simp only [unknownMsg] at this
  rw [this]
  exact eq_comm

theorem unknown_message_quotes_argv1_witness :
    main sampleBuild sampleConfig ["olive", "-f", "--bogus"] =
      some (.exited 1 "[ERROR] Unknown argument '-f'\n" []) :=
  by
  obtain ⟨_, _, a1, h1, hm, _⟩ :=
    unknown_message_quotes_argv1 sampleBuild sampleConfig ["olive", "-f", "--bogus"] 2
      { initState sampleConfig with launch_fullscreen := true } "--bogus"
      (Reaches.step (Reaches.start (by decide)) (by decide) (by decide)) (by decide)
      (by decide) (by decide)
  have h2 : a1 = "-f" := by simpa using h1.symm
  subst h2
  exact hm

/-! ## The help flag and the usage text -/

theorem documentedOptions_usageBody :
    documentedOptions usageBody = ["-v", "--version", "-h", "--help", "-f", "--fullscreen",
      "--disable-shaders", "--no-debug", "--translation"] := by decide

set_option maxRecDepth 100000 in
theorem usageBody_begins :
    usageBody = " [options] [filename]" ++ String.mk (usageBody.data.drop 21) := by
  decide

theorem body_flag_not_unknown {b : Build} {argv : List String} {j : Nat} {st : ParseState}
    {x a1 : String} (ha : argv[j]? = some x) (hx : x ∈ flagLiterals) :
    body b argv j st ≠ some (.ret 1 (unknownMsg a1) []) := by
  intro hb
  simp only [flagLiterals, List.mem_cons, List.mem_singleton, List.not_mem_nil, or_false] at hx
  rcases hx with rfl | rfl | rfl | rfl | rfl | rfl | rfl | rfl | rfl <;>
    simp +decide [body, ha] at hb
  · split at hb <;> simp at hb
  · split at hb <;> simp at hb
  · split_ifs at hb
    · split at hb
      · simp at hb
      · split_ifs at hb
        · simp only [Option.some.injEq, Step.ret.injEq, true_and, and_true] at hb
          exact noTranslationMsg_ne_unknownMsg _ hb
        · simp at hb
    · simp only [Option.some.injEq, Step.ret.injEq, true_and, and_true] at hb
      exact noTranslationMsg_ne_unknownMsg _ hb

/-- C7: when the scan reaches `-h` or `--help`, `main` returns 0 and the
whole of standard output is `Usage: ` followed by `argv[0]` and a text `tail`
that begins ` [options] [filename]`. The words of `tail` that begin with `-`
are the nine spellings of the six options, the names `tail` lists under
`Environment Variables:` are the three path variables, and an argument that
begins with `-` is named in `tail` exactly when the loop body does not answer
it with the unknown-argument message. -/
theorem help_flag_prints_usage (b : Build) (rc0 : RuntimeConfig) (argv : List String)
    (i : Nat) (st : ParseState) (a : String) (hr : Reaches b rc0 argv i st)
    (ha : argv[i]? = some a) (hh : a = "-h" ∨ a = "--help") :
    ∃ p tail, argv[0]? = some p ∧
      main b rc0 argv = some (.exited 0 ("Usage: " ++ p ++ tail) []) ∧
      (∃ rest, tail = " [options] [filename]" ++ rest) ∧
      documentedOptions tail = ["-v", "--version", "-h", "--help", "-f", "--fullscreen",
        "--disable-shaders", "--no-debug", "--translation"] ∧
      documentedVariables tail = ["OLIVE_EFFECTS_PATH", "FREI0R_PATH", "OLIVE_LANG_PATH"] ∧
      ∀ (argv' : List String) (j : Nat) (st' : ParseState) (x : String),
        1 ≤ j → argv'[j]? = some x → firstChar x = '-' →
        (x ∈ documentedOptions tail ↔
          ¬ ∃ a1, body b argv' j st' = some (.ret 1 (unknownMsg a1) [])) := by
  obtain ⟨p, hp⟩ := reaches_arg0 hr
  refine ⟨p, usageBody, hp, main_of_ret hr (body_help ha hh hp), ⟨_, usageBody_begins⟩,
    documentedOptions_usageBody, by decide, ?_⟩
  intro argv' j st' x hj hx hd
  have hmem : x ∈ documentedOptions usageBody ↔ x ∈ flagLiterals := by
    rw [documentedOptions_usageBody]
    simp only [flagLiterals, List.mem_cons, List.mem_singleton, List.not_mem_nil, or_false]
    tauto
  rw [hmem]
  constructor
  · rintro hm ⟨a1, hb⟩
    exact body_flag_not_unknown hx hm hb
  · intro hne
    by_contra hm
    have hlen : 1 < argv'.length := by
      by_contra hn
      have : argv'[j]? = none := List.getElem?_eq_none (by omega)
      simp [this] at hx
    obtain ⟨a1, h1⟩ : ∃ a1, argv'[1]? = some a1 := ⟨_, List.getElem?_eq_getElem hlen⟩
    exact hne ⟨a1, body_unknown hx hd hm h1⟩

theorem append_left_cancel_string {x y z : String} (h : x ++ y = x ++ z) : y = z := by
  have h2 := congrArg String.data h
  simp only [String.data_append] at h2
  exact String.ext (List.append_cancel_left h2)

set_option maxRecDepth 100000 in
theorem help_flag_prints_usage_witness :
    main sampleBuild sampleConfig ["olive", "--no-debug", "-h"] =
      some (.exited 0
        ("Usage: olive [options] [filename]\n\n" ++
         "[filename] is the file to open on startup.\n\n" ++
         "Options:\n" ++
         "\t-v, --version\t\tShow version information\n" ++
         "\t-h, --help\t\tShow this help\n" ++
         "\t-f, --fullscreen\tStart in full screen mode\n" ++
         "\t--disable-shaders\tDisable OpenGL shaders (for debugging)\n" ++
         "\t--no-debug\t\tDisable internal debug log and output directly to console\n" ++
         "\t--translation <file>\tSet an external language file to use\n" ++
         "\n" ++
         "Environment Variables:\n" ++
         "\tOLIVE_EFFECTS_PATH\tSpecify a path to search for GLSL shader effects\n" ++
         "\tFREI0R_PATH\t\tSpecify a path to search for Frei0r effects\n" ++
         "\tOLIVE_LANG_PATH\t\tSpecify a path to search for translation files\n" ++
         "\n") []) ∧
    documentedOptions
        (" [options] [filename]\n\n" ++
         "[filename] is the file to open on startup.\n\n" ++
         "Options:\n" ++
         "\t-v, --version\t\tShow version information\n" ++
         "\t-h, --help\t\tShow this help\n" ++
         "\t-f, --fullscreen\tStart in full screen mode\n" ++
         "\t--disable-shaders\tDisable OpenGL shaders (for debugging)\n" ++
         "\t--no-debug\t\tDisable internal debug log and output directly to console\n" ++
         "\t--translation <file>\tSet an external language file to use\n" ++
         "\n" ++
         "Environment Variables:\n" ++
         "\tOLIVE_EFFECTS_PATH\tSpecify a path to search for GLSL shader effects\n" ++
         "\tFREI0R_PATH\t\tSpecify a path to search for Frei0r effects\n" ++
         "\tOLIVE_LANG_PATH\t\tSpecify a path to search for translation files\n" ++
         "\n") =
      ["-v", "--version", "-h", "--help", "-f", "--fullscreen", "--disable-shaders",
        "--no-debug", "--translation"] := by
  obtain ⟨p, tail, h0, hm, _, hopt, _⟩ :=
    help_flag_prints_usage sampleBuild sampleConfig ["olive", "--no-debug", "-h"] 2
      { initState sampleConfig with use_internal_logger := false } "-h"
      (Reaches.step (Reaches.start (by decide)) (by decide) (by decide)) (by decide)
      (Or.inl rfl)
  have h2 : p = "olive" := by simpa using h0.symm
  subst h2
  have hrun : main sampleBuild sampleConfig ["olive", "--no-debug", "-h"] =
      some (.exited 0 ("Usage: " ++ "olive" ++ usageBody) []) := by decide
  have ht : tail = usageBody := by
    have h3 := hm.symm.trans hrun
    simp only [Option.some.injEq, Outcome.exited.injEq, true_and, and_true] at h3
    exact append_left_cancel_string h3
  subst ht
  exact ⟨hm.trans (by decide), hopt⟩

/-! ## The `--translation` option -/

/-- C4, as the code has it: when the scan reaches `--translation` and the
next argument `f` exists and does not begin with `-`, the body does not
return, `external_translation_file` becomes `f` and nothing else in the state
changes, and the scan resumes at the argument after `f`. -/
theorem translation_value_consumed (b : Build) (rc0 : RuntimeConfig) (argv : List String)
    (i : Nat) (st : ParseState) (f : String) (hr : Reaches b rc0 argv i st)
    (ha : argv[i]? = some "--translation") (hf : argv[i + 1]? = some f)
    (hd : firstChar f ≠ '-') :
    body b argv i st = some (.cont (i + 1) { st with
      runtime_config := { st.runtime_config with external_translation_file := f } }) ∧
    Reaches b rc0 argv (i + 2) { st with
      runtime_config := { st.runtime_config with external_translation_file := f } } ∧
    main b rc0 argv = scan b argv argv.length (i + 2) { st with
      runtime_config := { st.runtime_config with external_translation_file := f } } := by
  have hb := @body_translation_value b argv i st f ha hf hd
  have hr2 := Reaches.step hr (body_lt hb) hb
  exact ⟨hb, hr2, (reaches_main hr2).2 argv.length (by omega)⟩

theorem translation_value_consumed_witness :
    Reaches sampleBuild sampleConfig ["olive", "--translation", "fr.qm", "a.ove"] 3
      { initState sampleConfig with
        runtime_config := { sampleConfig with external_translation_file := "fr.qm" } } :=
  (translation_value_consumed sampleBuild sampleConfig
    ["olive", "--translation", "fr.qm", "a.ove"] 1 (initState sampleConfig) "fr.qm"
    (Reaches.start (by decide)) (by decide) (by decide) (by decide)).2.1

/-- C4 as stated fails: on `--translation -f` the scan reaches `--translation`
at position 1, one more argument follows, and `main` returns 1 with the
missing-file message instead of storing `-f`. -/
theorem translation_dash_value_rejected :
    Reaches sampleBuild sampleConfig ["olive", "--translation", "-f"] 1
      (initState sampleConfig) ∧
    ["olive", "--translation", "-f"][1]? = some "--translation" ∧
    ["olive", "--translation", "-f"][1 + 1]? = some "-f" ∧
    main sampleBuild sampleConfig ["olive", "--translation", "-f"] =
      some (.exited 1 "[ERROR] No translation file specified\n" []) :=
  ⟨Reaches.start (by decide), by decide, by decide, by decide⟩

/-! ## What a completed scan leaves behind -/

theorem getElem?_of_take_eq {argv argv' : List String} {n m : Nat}
    (h : argv'.take n = argv.take n) (hm : m < n) : argv'[m]? = argv[m]? := by
  rw [← List.getElem?_take_of_lt hm, h, List.getElem?_take_of_lt hm]

theorem take_eq_of_take_eq {argv argv' : List String} {n k : Nat}
    (h : argv'.take n = argv.take n) (hk : k ≤ n) : argv'.take k = argv.take k := by
  have := congrArg (List.take k) h
  simpa [List.take_take, Nat.min_eq_left hk] using this

theorem length_ge_of_take_eq {argv argv' : List String} {n : Nat}
    (h : argv'.take n = argv.take n) (hn : n ≤ argv.length) : n ≤ argv'.length := by
  have := congrArg List.length h
  simp only [List.length_take] at this
  omega

theorem body_congr {b : Build} {argv argv' : List String} {i : Nat} {st : ParseState}
    (hi : argv'[i]? = argv[i]?) (h0 : argv'[0]? = argv[0]?) (h1 : argv'[1]? = argv[1]?)
    (ht : argv[i]? = some "--translation" →
      argv'[i + 1]? = argv[i + 1]? ∧ (i + 1 < argv'.length ↔ i + 1 < argv.length)) :
    body b argv' i st = body b argv i st := by
  cases ha : argv[i]? with
  | none => simp only [body, hi, ha]
  | some a =>
    by_cases hta : a = "--translation"
    · subst hta
      obtain ⟨e1, e2⟩ := ht ha
      simp only [body, hi, ha, h0, h1, e1, e2]
    · simp only [body, hi, ha, h0, h1, hta, if_false]

theorem reaches_congr {b : Build} {rc0 : RuntimeConfig} {argv : List String} {i : Nat}
    {st : ParseState} (hr : Reaches b rc0 argv i st) :
    ∀ argv' : List String, argv'.take i = argv.take i → 1 < argv'.length →
      Reaches b rc0 argv' i st := by
  induction hr with
  | start h1 => intro argv' _ h; exact Reaches.start h
  | @step k j s s1 hr hk hb ih =>
    intro argv' ht hl
    have hc := body_cont_cases hb
    have hbd := reaches_bounds hr
    have hj : j + 1 ≤ argv.length := by
      rcases hc with ⟨h, _⟩ | ⟨h, h2, _⟩ <;> omega
    have hkj : k ≤ j := by
      rcases hc with ⟨h, _⟩ | ⟨h, h2, _⟩ <;> omega
    have hl2 := length_ge_of_take_eq ht hj
    have hr2 := ih argv' (take_eq_of_take_eq ht (by omega)) hl
    have hb2 : body b argv' k s = body b argv k s := by
      apply body_congr
      · exact getElem?_of_take_eq ht (by omega)
      · exact getElem?_of_take_eq ht (by omega)
      · exact getElem?_of_take_eq ht (by omega)
      · intro hta
        rcases hc with ⟨_, h2⟩ | ⟨h, h2, _⟩
        · exact absurd hta h2
        · exact ⟨getElem?_of_take_eq ht (by omega), by constructor <;> intro <;> omega⟩
    exact Reaches.step hr2 (by omega) (hb2.trans hb)

theorem exit_congr {b : Build} {rc0 : RuntimeConfig} {argv : List String} {i : Nat}
    {st : ParseState} {c : Int} {o : String} {w : List String}
    (hr : Reaches b rc0 argv i st) (hb : body b argv i st = some (.ret c o w))
    (argv' : List String)
    (ht : argv'.take (lastInspected argv i + 1) = argv.take (lastInspected argv i + 1))
    (hlen : argv[i]? = some "--translation" →
      (i + 1 < argv'.length ↔ i + 1 < argv.length)) :
    main b rc0 argv' = some (.exited c o w) := by
  have hi := body_lt hb
  have hbd := reaches_bounds hr
  have hn1 : i ≤ lastInspected argv i := by
    unfold lastInspected; split_ifs <;> omega
  have hn2 : lastInspected argv i + 1 ≤ argv.length := by
    unfold lastInspected; split_ifs with h <;> omega
  have hl2 := length_ge_of_take_eq ht hn2
  have hr2 := reaches_congr hr argv' (take_eq_of_take_eq ht (by omega)) (by omega)
  have hb2 : body b argv' i st = body b argv i st := by
    apply body_congr
    · exact getElem?_of_take_eq ht (by omega)
    · exact getElem?_of_take_eq ht (by omega)
    · exact getElem?_of_take_eq ht (by omega)
    · intro hta
      refine ⟨?_, hlen hta⟩
      by_cases h : i + 1 < argv.length
      · have : lastInspected argv i = i + 1 := by
          unfold lastInspected; rw [if_pos ⟨hta, h⟩]
        rw [this] at ht
        exact getElem?_of_take_eq ht (by omega)
      · have h2 : ¬ i + 1 < argv'.length := fun hx => h ((hlen hta).mp hx)
        rw [List.getElem?_eq_none (by omega), List.getElem?_eq_none (by omega)]
  exact main_of_ret hr2 (hb2.trans hb)

theorem body_translation_ret {b : Build} {argv : List String} {i : Nat} {st : ParseState}
    {c : Int} {o : String} {w : List String} (ha : argv[i]? = some "--translation")
    (hb : body b argv i st = some (.ret c o w)) : c = 1 ∧ o = noTranslationMsg ∧ w = [] := by
  unfold body at hb
  rw [ha] at hb
  simp +decide only [if_true, if_false] at hb
  split_ifs at hb <;> (try split at hb) <;> (try split_ifs at hb) <;> simp_all

/-- C9: when the loop body makes `main` return at a position `i` the scan
reached, `main` returns that exit code and output on the whole argument list,
on its prefix ending at the last argument the body inspected, on its prefix
ending at position `i`, and on the first of these prefixes followed by any
other arguments (unless the return is for a `--translation` that is the last
argument, where nothing follows). -/
theorem first_exit_decides (b : Build) (rc0 : RuntimeConfig) (argv : List String)
    (i : Nat) (st : ParseState) (c : Int) (o : String) (w : List String)
    (hr : Reaches b rc0 argv i st) (hb : body b argv i st = some (.ret c o w)) :
    main b rc0 argv = some (.exited c o w) ∧
    main b rc0 (argv.take (lastInspected argv i + 1)) = some (.exited c o w) ∧
    main b rc0 (argv.take (i + 1)) = some (.exited c o w) ∧
    ∀ tail : List String, (argv[i]? = some "--translation" → i + 1 < argv.length) →
      main b rc0 (argv.take (lastInspected argv i + 1) ++ tail) = some (.exited c o w) := by
  have hi := body_lt hb
  have hn2 : lastInspected argv i + 1 ≤ argv.length := by
    unfold lastInspected; split_ifs with h <;> omega
  have hpre : main b rc0 (argv.take (lastInspected argv i + 1)) = some (.exited c o w) := by
    apply exit_congr hr hb
    · simp [List.take_take]
    · intro hta
      simp only [List.length_take, lastInspected, hta, true_and]
      split_ifs with h <;> constructor <;> intro <;> omega
  refine ⟨main_of_ret hr hb, hpre, ?_, ?_⟩
  · by_cases h : argv[i]? = some "--translation" ∧ i + 1 < argv.length
    · obtain ⟨rfl, rfl, rfl⟩ := body_translation_ret h.1 hb
      have hbd := reaches_bounds hr
      have hr2 := reaches_congr hr (argv.take (i + 1)) (by simp [List.take_take])
        (by simp only [List.length_take]; omega)
      apply main_of_ret hr2
      apply body_translation_last
      · rw [List.getElem?_take_of_lt (by omega)]; exact h.1
      · simp only [List.length_take]; omega
    · have hl : lastInspected argv i = i := by unfold lastInspected; rw [if_neg h]
      rw [hl] at hpre
      exact hpre
  · intro tail htl
    apply exit_congr hr hb
    · rw [List.take_append_of_le_length (by simp only [List.length_take]; omega)]
      simp [List.take_take]
    · intro hta
      have h := htl hta
      have hlast : lastInspected argv i = i + 1 := by
        unfold lastInspected; rw [if_pos ⟨hta, h⟩]
      have hmin : min (i + 1 + 1) argv.length = i + 1 + 1 := Nat.min_eq_left (by omega)
      rw [hlast, List.length_append, List.length_take, hmin]
      constructor <;> intro <;> omega

theorem first_exit_decides_witness :
    (main sampleBuild sampleConfig ["olive", "--bogus", "-v"] =
        some (.exited 1 "[ERROR] Unknown argument '--bogus'\n" []) ∧
      main sampleBuild sampleConfig ["olive", "--bogus"] =
        some (.exited 1 "[ERROR] Unknown argument '--bogus'\n" [])) ∧
    (main sampleBuild sampleConfig ["olive", "-v", "--bogus"] =
        some (.exited 0 "Olive\n" []) ∧
      main sampleBuild sampleConfig ["olive", "-v"] = some (.exited 0 "Olive\n" [])) :=
  have h1 := first_exit_decides sampleBuild sampleConfig ["olive", "--bogus", "-v"] 1
    (initState sampleConfig) 1 "[ERROR] Unknown argument '--bogus'\n" []
    (Reaches.start (by decide)) (by decide)
  have h2 := first_exit_decides sampleBuild sampleConfig ["olive", "-v", "--bogus"] 1
    (initState sampleConfig) 0 "Olive\n" [] (Reaches.start (by decide)) (by decide)
  ⟨⟨h1.1, h1.2.2.1⟩, ⟨h2.1, h2.2.2.1⟩⟩

/-! ## The `Ghost` record -/

/-- C8: `TrimType` has exactly the three values `TRIM_NONE`, `TRIM_IN` and
`TRIM_OUT`, they are pairwise distinct (as constructors and as enum integers),
and assigning any of the proposed members `in`, `out`, `track`, `clip_in` of a
`Ghost` leaves `old_in`, `old_out`, `old_track`, `old_clip_in`, `media`,
`media_stream` and `trim_type` unchanged, while the assigned member takes the
new value. -/
theorem ghost_proposed_fields_separate :
    (∀ t : TrimType, t = .TRIM_NONE ∨ t = .TRIM_IN ∨ t = .TRIM_OUT) ∧
    (TrimType.TRIM_NONE ≠ TrimType.TRIM_IN ∧ TrimType.TRIM_NONE ≠ TrimType.TRIM_OUT ∧
      TrimType.TRIM_IN ≠ TrimType.TRIM_OUT) ∧
    (∀ s t : TrimType, s.toInt = t.toInt → s = t) ∧
    (∀ (g : Ghost) (v : Int), (g.assign_in v).kept = g.kept ∧ (g.assign_in v).«in» = v) ∧
    (∀ (g : Ghost) (v : Int), (g.assign_out v).kept = g.kept ∧ (g.assign_out v).out = v) ∧
    (∀ (g : Ghost) (v : Ptr), (g.assign_track v).kept = g.kept ∧ (g.assign_track v).track = v) ∧
    (∀ (g : Ghost) (v : Int),
      (g.assign_clip_in v).kept = g.kept ∧ (g.assign_clip_in v).clip_in = v) := by
  refine ⟨?_, ⟨by decide, by decide, by decide⟩, ?_, ?_, ?_, ?_, ?_⟩
  · intro t; cases t <;> simp
  · intro s t; cases s <;> cases t <;> simp [TrimType.toInt]
  · intro g v; exact ⟨rfl, rfl⟩
  · intro g v; exact ⟨rfl, rfl⟩
  · intro g v; exact ⟨rfl, rfl⟩
  · intro g v; exact ⟨rfl, rfl⟩

end Olive
